import Mathlib

/-!
Verification development for the sonic-siphon job orchestration service.

The Go source is embedded shallowly: pure control flow becomes Lean
functions, the `float64` tempo arithmetic is modelled over `ℚ` (the loop
only multiplies and divides by 2, which is exact in binary floating
point, and all comparisons are against exact dyadic constants), and
effectful code (ffmpeg invocation, filesystem moves, job-status writes)
is modelled by explicit state passing with the outcomes of external
tools supplied as oracle parameters.
-/

namespace SonicSiphon

/-- Arithmetic helper used for termination of the atempo chain loops:
halving a rational that is greater than 2 strictly decreases its
natural floor. -/
lemma floor_half_lt {b : ℚ} (hb : 2 < b) : ⌊b / 2⌋₊ < ⌊b⌋₊ := by
  have hb0 : (0 : ℚ) ≤ b / 2 := by linarith
  have h1 : ((⌊b / 2⌋₊ : ℚ)) ≤ b / 2 := Nat.floor_le hb0
  have h2 : b / 2 < b - 1 := by linarith
  have h3 : b - 1 < (⌊b⌋₊ : ℚ) := by
    have := Nat.lt_floor_add_one b
    linarith
  exact_mod_cast h1.trans_lt (h2.trans h3)

/-- `adjustAudioSpeed`, lines 599-609 of the executor source: the
`speed > 2.0` branch.  While the remaining multiplier exceeds 2 it
emits a stage `2.0` and halves the remainder; afterwards the remainder
is appended as a trailing stage exactly when it exceeds 1. -/
def chainUp (r : ℚ) : List ℚ :=
  if h : 2 < r then 2 :: chainUp (r / 2)
  else if 1 < r then [r] else []
termination_by ⌊r⌋₊
decreasing_by exact floor_half_lt h

/-- `adjustAudioSpeed`, lines 610-622: the `speed < 0.5` branch.  While
the remaining multiplier is below 1/2 it emits a stage `0.5` and
doubles the remainder (`remaining /= 0.5`); afterwards the remainder is
appended as a trailing stage exactly when it is below 1.
The `0 < r` part of the guard is not in the Go source: for `r ≤ 0` the
Go loop never terminates, so the value returned here in that region is
irrelevant (every claim constrains the multiplier to be positive). -/
def chainDown (r : ℚ) : List ℚ :=
  if h : 0 < r ∧ r < 1/2 then (1/2 : ℚ) :: chainDown (2 * r)
  else if r < 1 then [r] else []
termination_by ⌊r⁻¹⌋₊
decreasing_by
  have hr : 0 < r := h.1
  have h2 : 2 < r⁻¹ := by
    exact (lt_inv_comm₀ (by norm_num) hr).mpr (by linarith [h.2])
  have he : (2 * r)⁻¹ = r⁻¹ / 2 := by
    rw [mul_inv]
    ring
  rw [he]
  exact floor_half_lt h2

/-- The stage sequence built by `adjustAudioSpeed` (lines 593-622): the
values passed to the chained ffmpeg `atempo` filters, in order. -/
def atempoStages (speed : ℚ) : List ℚ :=
  if 1/2 ≤ speed ∧ speed ≤ 2 then [speed]
  else if 2 < speed then chainUp speed
  else chainDown speed

lemma chainUp_mem : ∀ r : ℚ, ∀ s ∈ chainUp r, 1 < s ∧ s ≤ 2 := by
  intro r
  induction r using chainUp.induct with
  | case1 r h ih =>
    intro s hs
    rw [chainUp, dif_pos h] at hs
    rcases List.mem_cons.mp hs with h1 | h2
    · subst h1; constructor <;> norm_num
    · exact ih s h2
  | case2 r h h1 =>
    intro s hs
    rw [chainUp, dif_neg h, if_pos h1] at hs
    rcases List.mem_singleton.mp hs with rfl
    exact ⟨h1, le_of_not_lt h⟩
  | case3 r h h1 =>
    intro s hs
    rw [chainUp, dif_neg h, if_neg h1] at hs
    simp at hs

lemma chainUp_prod : ∀ r : ℚ, 1 < r → (chainUp r).prod = r := by
  intro r
  induction r using chainUp.induct with
  | case1 r h ih =>
    intro _
    rw [chainUp, dif_pos h]
    have ih2 := ih (by linarith)
    rw [List.prod_cons, ih2]
    ring
  | case2 r h h1 =>
    intro _
    rw [chainUp, dif_neg h, if_pos h1]
    simp
  | case3 r h h1 =>
    intro hr
    exact absurd hr h1

lemma chainDown_mem : ∀ r : ℚ, 0 < r → ∀ s ∈ chainDown r, 1/2 ≤ s ∧ s < 1 := by
  intro r
  induction r using chainDown.induct with
  | case1 r h ih =>
    intro _ s hs
    rw [chainDown, dif_pos h] at hs
    rcases List.mem_cons.mp hs with h1 | h2
    · subst h1; norm_num
    · exact ih (by linarith [h.1]) s h2
  | case2 r h h1 =>
    intro hr s hs
    rw [chainDown, dif_neg h, if_pos h1] at hs
    rcases List.mem_singleton.mp hs with rfl
    refine ⟨?_, h1⟩
    by_contra hlt
    exact h ⟨hr, by linarith⟩
  | case3 r h h1 =>
    intro _ s hs
    rw [chainDown, dif_neg h, if_neg h1] at hs
    simp at hs

lemma chainDown_prod : ∀ r : ℚ, 0 < r → r < 1 → (chainDown r).prod = r := by
  intro r
  induction r using chainDown.induct with
  | case1 r h ih =>
    intro _ _
    rw [chainDown, dif_pos h]
    have ih2 := ih (by linarith [h.1]) (by linarith [h.2])
    rw [List.prod_cons, ih2]
    ring
  | case2 r h h1 =>
    intro _ _
    rw [chainDown, dif_neg h, if_pos h1]
    simp
  | case3 r h h1 =>
    intro _ hr
    exact absurd hr h1

/-- Every stage emitted by the planner lies in the ffmpeg atempo range. -/
lemma atempoStages_mem {m : ℚ} (hm : 0 < m) :
    ∀ s ∈ atempoStages m, 1/2 ≤ s ∧ s ≤ 2 := by
  intro s hs
  rw [atempoStages] at hs
  by_cases h1 : 1/2 ≤ m ∧ m ≤ 2
  · rw [if_pos h1] at hs
    rcases List.mem_singleton.mp hs with rfl
    exact h1
  · rw [if_neg h1] at hs
    by_cases h2 : 2 < m
    · rw [if_pos h2] at hs
      have := chainUp_mem m s hs
      exact ⟨by linarith [this.1], this.2⟩
    · rw [if_neg h2] at hs
      have := chainDown_mem m hm s hs
      exact ⟨this.1, by linarith [this.2]⟩

/-- The product of the emitted stages recovers the requested multiplier
exactly (the planner only splits off factors of 2). -/
lemma atempoStages_prod {m : ℚ} (hm : 0 < m) :
    (atempoStages m).prod = m := by
  rw [atempoStages]
  by_cases h1 : 1/2 ≤ m ∧ m ≤ 2
  · rw [if_pos h1]; simp
  · rw [if_neg h1]
    by_cases h2 : 2 < m
    · rw [if_pos h2]
      exact chainUp_prod m (by linarith)
    · rw [if_neg h2]
      have hlt : m < 1/2 := by
        by_contra hge
        exact h1 ⟨le_of_not_lt hge, le_of_not_lt h2⟩
      exact chainDown_prod m hm (by linarith)

lemma atempoStages_three : atempoStages 3 = [2, 3/2] := by
  have h2 : chainUp (3/2) = [3/2] := by
    rw [chainUp]
    norm_num
  have h1 : chainUp 3 = 2 :: chainUp (3/2) := by
    rw [chainUp]
    norm_num
  rw [atempoStages]
  norm_num [h1, h2]

lemma atempoStages_quarter : atempoStages (1/4) = [1/2, 1/2] := by
  have h2 : chainDown (1/2) = [1/2] := by
    rw [chainDown]
    norm_num
  have h1 : chainDown (1/4) = (1/2 : ℚ) :: chainDown (2 * (1/4)) := by
    rw [chainDown]
    norm_num
  rw [atempoStages]
  norm_num [h1, h2]

/-! ## Job status and the cancellation handler -/

/-- The `Status` field values written by `handlers.go` and the executor. -/
inductive Status
  | queued
  | downloading
  | processing
  | completed
  | error
  | cancelled
deriving DecidableEq

/-- Terminal statuses per the state machine. -/
def isTerminal : Status → Bool
  | .completed => true
  | .error => true
  | .cancelled => true
  | _ => false

/-- The per-job state touched by `cancelJobHandler` (handlers.go lines
338-372).  `kills` counts `cmd.Process.Kill()` invocations and
`signals` counts `cancel()` invocations; both are instrumentation of
the side effects, not Go fields. -/
structure JobC where
  status : Status
  hasCmd : Bool
  kills : Nat
  signals : Nat
deriving DecidableEq

inductive CancelRes
  | ok
  | notCancellable
deriving DecidableEq

/-- `cancelJobHandler` (handlers.go lines 349-371) on a job that exists
in the map: only `queued`, `downloading` or `processing` jobs may be
cancelled; otherwise the handler returns an error having written
nothing.  On success it signals the context, kills the stored command
if one is set, and writes `status = cancelled`. -/
def cancelJobHandler (j : JobC) : CancelRes × JobC :=
  if j.status = .queued ∨ j.status = .downloading ∨ j.status = .processing then
    (.ok, { status := .cancelled
          , hasCmd := j.hasCmd
          , kills := j.kills + (if j.hasCmd then 1 else 0)
          , signals := j.signals + 1 })
  else (.notCancellable, j)

/-- The executor's final status write (executor source lines 452-462 for
the playlist workflow and 575-584 for the single workflow): guarded
only by the job existing in the map, it overwrites whatever status the
job currently has. -/
def executorCompleteWrite (_s : Status) : Status := Status.completed

/-- The executor's status write when `adjustAudioSpeed` returns an
error in the single workflow (executor source lines 560-569): it
writes `error` without checking whether the context was cancelled. -/
def executorSpeedFailWrite (_s : Status) : Status := Status.error

/-! ## The task executor as a trace of job writes and tool invocations -/

/-- The `job.Message` strings written by `downloadTask`, keeping the
format arguments as structured data. -/
inductive Msg
  | cancelledBeforeStart
  | startingDownload
  | downloadingPlaylist
  | downloadCancelled
  | playlistDownloadError
  | applyingSpeed (speed : ℚ) (n : Nat)
  | cancelledAfter (i : Nat) (n : Nat)
  | processingFile (i : Nat) (n : Nat) (name : String)
  | downloadedWithSpeed (n : Nat) (speed : ℚ)
  | downloaded (n : Nat)
  | downloadingVideo
  | singleDownloadError
  | noMP3Created
  | applyingSpeedSingle (speed : ℚ)
  | speedAdjustFailed
  | completedWithSpeed (speed : ℚ)
  | downloadCompleted
deriving DecidableEq

/-- External-tool invocations made by `downloadTask`. -/
inductive Tool
  | ytdlpPlaylist
  | ytdlpSingle
  | ytdlpRetry
  | ffmpegAdjust (file : String)
deriving DecidableEq

/-- One observable event of the executor: a `job.Status` write, a
`job.Message` write, or an external-tool invocation. -/
inductive Ev
  | status (s : Status)
  | msg (m : Msg)
  | invoke (t : Tool)
deriving DecidableEq

def statusesOf (evs : List Ev) : List Status :=
  evs.filterMap fun e => match e with
    | .status s => some s
    | _ => none

def msgsOf (evs : List Ev) : List Msg :=
  evs.filterMap fun e => match e with
    | .msg m => some m
    | _ => none

def invokesOf (evs : List Ev) : List Tool :=
  evs.filterMap fun e => match e with
    | .invoke t => some t
    | _ => none

/-- Oracle for the playlist branch of `downloadTask`: `runErr = none`
means `cmd.Run()` succeeded, `some c` that it failed with `c`
recording whether `ctx.Err() == context.Canceled`; `newFiles` is the
directory diff; `cancelledBefore i` is the `ctx.Done()` poll before
item `i`; `adjustOk i` is whether `adjustAudioSpeed` succeeded on
item `i`. -/
structure PlaylistEnv where
  runErr : Option Bool
  newFiles : List String
  cancelledBefore : Nat → Bool
  adjustOk : Nat → Bool

/-- Oracle for the single-video branch: `firstResult` is what
`downloadSingleVideo` returned, `retryErr` the outcome of the retry
invocation (as for `runErr`), `foundFile` the newest MP3 located after
a successful retry, and `adjustOk` the outcome of `adjustAudioSpeed`. -/
structure SingleEnv where
  firstResult : Option String
  retryErr : Option Bool
  foundFile : Option String
  adjustOk : Bool

/-- Executor source lines 553-584: the tail of the single workflow once
a file path is known.  A non-identity multiplier enters `processing`
and invokes `adjustAudioSpeed`; identity goes straight to the
completion block. -/
def afterDownload (speed : ℚ) (adjustOk : Bool) (file : String) : List Ev :=
  if speed ≠ 1 then
    Ev.status Status.processing :: Ev.msg (Msg.applyingSpeedSingle speed) ::
    Ev.invoke (Tool.ffmpegAdjust file) ::
    (if adjustOk then [Ev.status Status.completed, Ev.msg (Msg.completedWithSpeed speed)]
     else [Ev.status Status.error, Ev.msg Msg.speedAdjustFailed])
  else [Ev.status Status.completed, Ev.msg Msg.downloadCompleted]

/-- Executor source lines 468-587: the single-video workflow. -/
def singleBranch (speed : ℚ) (e : SingleEnv) : List Ev :=
  Ev.msg Msg.downloadingVideo :: Ev.invoke Tool.ytdlpSingle ::
  match e.firstResult with
  | some f => afterDownload speed e.adjustOk f
  | none =>
    Ev.invoke Tool.ytdlpRetry ::
    match e.retryErr with
    | some true => [Ev.status Status.cancelled, Ev.msg Msg.downloadCancelled]
    | some false => [Ev.status Status.error, Ev.msg Msg.singleDownloadError]
    | none =>
      match e.foundFile with
      | none => [Ev.status Status.error, Ev.msg Msg.noMP3Created]
      | some f => afterDownload speed e.adjustOk f

/-- Executor source lines 422-447: the per-file processing loop of the
playlist workflow, started at index `i`.  Returns the events, whether
the loop returned early on cancellation, and the `successCount` it
accumulated. -/
def playlistLoop (cancelledBefore adjustOk : Nat → Bool) (total : Nat) :
    List String → Nat → List Ev × Bool × Nat
  | [], _ => ([], false, 0)
  | f :: rest, i =>
    if cancelledBefore i then
      ([Ev.status Status.cancelled, Ev.msg (Msg.cancelledAfter i total)], true, 0)
    else
      let r := playlistLoop cancelledBefore adjustOk total rest (i + 1)
      (Ev.msg (Msg.processingFile (i + 1) total f) :: Ev.invoke (Tool.ffmpegAdjust f) :: r.1,
       r.2.1,
       (if adjustOk i then 1 else 0) + r.2.2)

/-- Executor source lines 452-462: the completion block; the message
reports the number of downloaded files `n`, choosing its format by
whether the multiplier is the identity. -/
def completedBlock (speed : ℚ) (n : Nat) : List Ev :=
  [Ev.status Status.completed,
   Ev.msg (if speed ≠ 1 then Msg.downloadedWithSpeed n speed else Msg.downloaded n)]

/-- Executor source lines 343-466: the playlist workflow. -/
def playlistBranch (speed : ℚ) (e : PlaylistEnv) : List Ev :=
  Ev.msg Msg.downloadingPlaylist :: Ev.invoke Tool.ytdlpPlaylist ::
  match e.runErr with
  | some true => [Ev.status Status.cancelled, Ev.msg Msg.downloadCancelled]
  | some false => [Ev.status Status.error, Ev.msg Msg.playlistDownloadError]
  | none =>
    if speed ≠ 1 ∧ 0 < e.newFiles.length then
      let r := playlistLoop e.cancelledBefore e.adjustOk e.newFiles.length e.newFiles 0
      Ev.status Status.processing :: Ev.msg (Msg.applyingSpeed speed e.newFiles.length) ::
        (r.1 ++ (if r.2.1 then [] else completedBlock speed e.newFiles.length))
    else completedBlock speed e.newFiles.length

/-- `downloadTask` (executor source lines 314-587) as the trace of its
job writes and tool invocations.  `cancelledAtStart` is the initial
`ctx.Done()` poll; `isPlaylist` the URL classification of lines
334-340. -/
def downloadTask (cancelledAtStart isPlaylist : Bool) (speed : ℚ)
    (pe : PlaylistEnv) (se : SingleEnv) : List Ev :=
  if cancelledAtStart then
    [Ev.status Status.cancelled, Ev.msg Msg.cancelledBeforeStart]
  else
    Ev.status Status.downloading :: Ev.msg Msg.startingDownload ::
    (if isPlaylist then playlistBranch speed pe else singleBranch speed se)

/-! ## The filesystem effect of `adjustAudioSpeed` -/

/-- The two paths `adjustAudioSpeed` touches: the input file and its
temporary sibling `inputFile + ".tmp.mp3"`.  `none` means the path does
not exist; `some c` that it holds content `c`. -/
structure FsState where
  orig : Option Nat
  temp : Option Nat
deriving DecidableEq

/-- The filesystem effect of `adjustAudioSpeed` (executor source lines
624-654).  `ffmpegOk` is the exit status of the ffmpeg invocation and
`tempWritten` whatever ffmpeg left at the temporary path (a complete
transcode on success, possibly a partial file on failure).  Returns
the error result (`none` = success) paired with the resulting state:
on ffmpeg failure the function returns at line 642 having performed no
remove or rename; on success it removes the original (line 646) and
renames the temporary file into place (line 650). -/
def adjustAudioSpeedFs (ffmpegOk : Bool) (tempWritten : Option Nat)
    (s : FsState) : Option String × FsState :=
  let s1 : FsState := ⟨s.orig, tempWritten⟩
  if ffmpegOk then
    match s1.orig with
    | none => (some "failed to remove original file", s1)
    | some _ =>
      let s2 : FsState := ⟨none, s1.temp⟩
      match s2.temp with
      | none => (some "failed to rename temp file", s2)
      | some t => (none, ⟨some t, none⟩)
  else (some "ffmpeg failed", s1)

/-! ## The move handler and its copy fallback -/

/-- Outcome of the `os.Rename` attempt in `moveFilesHandler`
(handlers.go line 232): success, a `LinkError` wrapping `EXDEV`, some
other `LinkError`, or a non-link error. -/
inductive RenameRes
  | ok
  | exdev
  | linkErr
  | otherErr
deriving DecidableEq

/-- Outcomes of the four fallible steps of `copyFile` (handlers.go
lines 268-288): opening the source, creating the destination, the
`io.Copy`, and the final `destFile.Sync()`. -/
structure CopyEnv where
  openOk : Bool
  createOk : Bool
  copyOk : Bool
  syncOk : Bool
deriving DecidableEq

/-- `copyFile` reports success only when all four steps, including the
fsync of the destination, succeeded. -/
def copyFile (e : CopyEnv) : Bool :=
  e.openOk && e.createOk && e.copyOk && e.syncOk

/-- Oracle for one file of a move request. -/
structure FileEnv where
  validPath : Bool
  srcExists : Bool
  rename : RenameRes
  copy : CopyEnv
  removeOk : Bool
deriving DecidableEq

/-- The per-file errors `moveFilesHandler` appends, as structured
values. -/
inductive MoveErr
  | invalidPath
  | notFoundInTemp
  | copyFailed
  | copiedButRemoveFailed
  | renameFailed
deriving DecidableEq

/-- Result for one file: whether it was counted in `movedCount`, the
error appended for it (if any), and the final filesystem state of the
source and destination paths.  `dstSynced` records that the
destination's data was fsynced. -/
structure FileOutcome where
  moved : Bool
  err : Option MoveErr
  srcExists : Bool
  dstExists : Bool
  dstSynced : Bool
deriving DecidableEq

/-- One iteration of the loop in `moveFilesHandler` (handlers.go lines
217-258).  On `EXDEV` it falls back to `copyFile` and then
`os.Remove(srcPath)`; when that remove fails it appends an error but
still falls through to `movedCount++` (line 244: "Continue anyway
since file was copied"). -/
def moveOne (e : FileEnv) : FileOutcome :=
  if ¬ e.validPath then ⟨false, some .invalidPath, e.srcExists, false, false⟩
  else if ¬ e.srcExists then ⟨false, some .notFoundInTemp, false, false, false⟩
  else match e.rename with
  | .ok => ⟨true, none, false, true, false⟩
  | .exdev =>
    if copyFile e.copy then
      if e.removeOk then ⟨true, none, false, true, true⟩
      else ⟨true, some .copiedButRemoveFailed, true, true, true⟩
    else ⟨false, some .copyFailed, true, e.copy.openOk && e.copy.createOk, false⟩
  | .linkErr => ⟨false, some .renameFailed, true, false, false⟩
  | .otherErr => ⟨false, some .renameFailed, true, false, false⟩

/-- `moveFilesHandler` over the whole request: the reported
`movedCount` and the per-file outcomes. -/
def moveFilesHandler (es : List FileEnv) : Nat × List FileOutcome :=
  ((es.map moveOne).countP (fun o => o.moved), es.map moveOne)

/-! ## The download submission handler -/

structure DownloadReq where
  url : String
  speed : ℚ
deriving DecidableEq

inductive SubmitRes
  | badRequest (msg : String)
  | created (url : String) (speed : ℚ)
deriving DecidableEq

/-- `downloadHandler` (handlers.go lines 58-98).  `bindOk` is whether
the JSON bind succeeded; a request whose `speed` field is omitted
decodes to the zero value `0`, which line 74-76 replaces with `1.0`
before the job is created and `downloadTask` is started with that
speed. -/
def downloadHandler (bindOk : Bool) (req : DownloadReq) : SubmitRes :=
  if ¬ bindOk then .badRequest "Invalid request"
  else if req.url = "" then .badRequest "No URL provided"
  else
    let speed := if req.speed = 0 then 1 else req.speed
    .created req.url speed

/-! ## Characterisation of the chain loops -/

/-- `chainUp r` is exactly `k` copies of the stage `2` — where `k` is
the number of halvings needed to bring `r` to at most `2` — followed by
the remainder `r / 2 ^ k` exactly when that remainder exceeds `1`. -/
lemma chainUp_spec : ∀ r : ℚ, ∃ k : Nat, r / 2 ^ k ≤ 2 ∧
    (∀ j < k, 2 < r / 2 ^ j) ∧
    chainUp r = List.replicate k 2 ++
      (if 1 < r / 2 ^ k then [r / 2 ^ k] else []) := by
  intro r
  induction r using chainUp.induct with
  | case1 r h ih =>
    obtain ⟨k, h1, h2, h3⟩ := ih
    refine ⟨k + 1, ?_, ?_, ?_⟩
    · have e : r / 2 ^ (k + 1) = r / 2 / 2 ^ k := by
        rw [pow_succ]
        ring
      rw [e]
      exact h1
    · intro j hj
      cases j with
      | zero => simpa using h
      | succ j' =>
        have e : r / 2 ^ (j' + 1) = r / 2 / 2 ^ j' := by
          rw [pow_succ]
          ring
        rw [e]
        exact h2 j' (by omega)
    · have e : r / 2 ^ (k + 1) = r / 2 / 2 ^ k := by
        rw [pow_succ]
        ring
      rw [chainUp, dif_pos h, h3, e, List.replicate_succ]
      simp
  | case2 r h h1 =>
    refine ⟨0, by simpa using le_of_not_lt h, by omega, ?_⟩
    rw [chainUp, dif_neg h]
    simp [h1]
  | case3 r h h1 =>
    refine ⟨0, by simpa using le_of_not_lt h, by omega, ?_⟩
    rw [chainUp, dif_neg h]
    simp [h1]

/-- `chainDown r` (for `0 < r`) is exactly `k` copies of the stage
`1/2` — where `k` is the number of doublings needed to bring `r` to at
least `1/2` — followed by the remainder `r * 2 ^ k` exactly when that
remainder is below `1`. -/
lemma chainDown_spec : ∀ r : ℚ, 0 < r → ∃ k : Nat, 1/2 ≤ r * 2 ^ k ∧
    (∀ j < k, r * 2 ^ j < 1/2) ∧
    chainDown r = List.replicate k (1/2) ++
      (if r * 2 ^ k < 1 then [r * 2 ^ k] else []) := by
  intro r
  induction r using chainDown.induct with
  | case1 r h ih =>
    intro _
    obtain ⟨k, h1, h2, h3⟩ := ih (by linarith [h.1])
    refine ⟨k + 1, ?_, ?_, ?_⟩
    · have e : r * 2 ^ (k + 1) = 2 * r * 2 ^ k := by
        rw [pow_succ]
        ring
      rw [e]
      exact h1
    · intro j hj
      cases j with
      | zero => simpa using h.2
      | succ j' =>
        have e : r * 2 ^ (j' + 1) = 2 * r * 2 ^ j' := by
          rw [pow_succ]
          ring
        rw [e]
        exact h2 j' (by omega)
    · have e : r * 2 ^ (k + 1) = 2 * r * 2 ^ k := by
        rw [pow_succ]
        ring
      rw [chainDown, dif_pos h, h3, e, List.replicate_succ]
      simp
  | case2 r h h1 =>
    intro hr
    have hge : 1/2 ≤ r := by
      by_contra hlt
      exact h ⟨hr, by linarith⟩
    refine ⟨0, by simpa using hge, by omega, ?_⟩
    rw [chainDown, dif_neg h]
    simp [h1]
  | case3 r h h1 =>
    intro hr
    have hge : 1 ≤ r := le_of_not_lt h1
    refine ⟨0, by simpa using hge.trans' (by norm_num), by omega, ?_⟩
    rw [chainDown, dif_neg h]
    have : ¬ r * 2 ^ (0 : Nat) < 1 := by simpa using h1
    simp [h1, this]

/-! ## Claims C1 and C2: the tempo planner -/

/-- C1: for every target multiplier `m` in `(0, 10]`, every stage built
by the tempo planner in `adjustAudioSpeed` lies in `[0.5, 2.0]` and the
product of the stages equals `m` within `1e-3` (here: exactly);
`m = 3.0` yields the stages `[2.0, 1.5]` and `m = 0.25` yields
`[0.5, 0.5]`. -/
theorem atempoStages_bounds_and_product (m : ℚ) (h1 : 0 < m) (_h2 : m ≤ 10) :
    (∀ s ∈ atempoStages m, 1/2 ≤ s ∧ s ≤ 2) ∧
    |(atempoStages m).prod - m| ≤ 1/1000 ∧
    atempoStages 3 = [2, 3/2] ∧
    atempoStages (1/4) = [1/2, 1/2] := by
  refine ⟨atempoStages_mem h1, ?_, atempoStages_three, atempoStages_quarter⟩
  rw [atempoStages_prod h1]
  simp

theorem atempoStages_bounds_and_product_witness :
    (∀ s ∈ atempoStages 3, 1/2 ≤ s ∧ s ≤ 2) ∧
    |(atempoStages 3).prod - 3| ≤ 1/1000 ∧
    atempoStages 3 = [2, 3/2] ∧
    atempoStages (1/4) = [1/2, 1/2] :=
  atempoStages_bounds_and_product 3 (by norm_num) (by norm_num)

/-- C2: the planner follows the spec's exact stage construction: a
single stage `[m]` for `m ∈ [0.5, 2]`; for `m > 2` repeated stages `2`
until the remainder is at most `2`, with the remainder appended as a
trailing stage if and only if it exceeds `1`; for `m < 0.5` the
symmetric construction with stage `1/2`, the remainder appended if and
only if it is below `1`. -/
theorem atempoStages_construction (m : ℚ) (hm : 0 < m) :
    (1/2 ≤ m ∧ m ≤ 2 → atempoStages m = [m]) ∧
    (2 < m → ∃ k : Nat, m / 2 ^ k ≤ 2 ∧ (∀ j < k, 2 < m / 2 ^ j) ∧
      atempoStages m = List.replicate k 2 ++
        (if 1 < m / 2 ^ k then [m / 2 ^ k] else [])) ∧
    (m < 1/2 → ∃ k : Nat, 1/2 ≤ m * 2 ^ k ∧ (∀ j < k, m * 2 ^ j < 1/2) ∧
      atempoStages m = List.replicate k (1/2) ++
        (if m * 2 ^ k < 1 then [m * 2 ^ k] else [])) := by
  refine ⟨?_, ?_, ?_⟩
  · intro h
    rw [atempoStages, if_pos h]
  · intro h
    obtain ⟨k, hk1, hk2, hk3⟩ := chainUp_spec m
    refine ⟨k, hk1, hk2, ?_⟩
    rw [atempoStages, if_neg (by rintro ⟨_, hle⟩; linarith), if_pos h]
    exact hk3
  · intro h
    obtain ⟨k, hk1, hk2, hk3⟩ := chainDown_spec m hm
    refine ⟨k, hk1, hk2, ?_⟩
    rw [atempoStages, if_neg (by rintro ⟨hle, _⟩; linarith),
      if_neg (by linarith)]
    exact hk3

theorem atempoStages_construction_witness :
    (1/2 ≤ (3:ℚ) ∧ (3:ℚ) ≤ 2 → atempoStages 3 = [3]) ∧
    (2 < (3:ℚ) → ∃ k : Nat, (3:ℚ) / 2 ^ k ≤ 2 ∧ (∀ j < k, 2 < (3:ℚ) / 2 ^ j) ∧
      atempoStages 3 = List.replicate k 2 ++
        (if 1 < (3:ℚ) / 2 ^ k then [(3:ℚ) / 2 ^ k] else [])) ∧
    ((3:ℚ) < 1/2 → ∃ k : Nat, 1/2 ≤ (3:ℚ) * 2 ^ k ∧
      (∀ j < k, (3:ℚ) * 2 ^ j < 1/2) ∧
      atempoStages 3 = List.replicate k (1/2) ++
        (if (3:ℚ) * 2 ^ k < 1 then [(3:ℚ) * 2 ^ k] else [])) :=
  atempoStages_construction 3 (by norm_num)

/-! ## Claim C3: terminal statuses are not terminal in the code -/

/-- C3 (code bug evidence): a job in `processing` is cancelled by
`cancelJobHandler` — reaching the terminal status `cancelled` — yet the
executor's final status write (guarded only by the job existing in the
map) then sets it to `completed`, and its speed-failure write would set
it to `error`.  The terminal status is overwritten, contradicting the
state machine. -/
theorem cancelled_overwritten_by_executor :
    (cancelJobHandler ⟨Status.processing, true, 0, 0⟩).1 = CancelRes.ok ∧
    (cancelJobHandler ⟨Status.processing, true, 0, 0⟩).2.status = Status.cancelled ∧
    isTerminal Status.cancelled = true ∧
    executorCompleteWrite (cancelJobHandler ⟨Status.processing, true, 0, 0⟩).2.status =
      Status.completed ∧
    executorSpeedFailWrite (cancelJobHandler ⟨Status.processing, true, 0, 0⟩).2.status =
      Status.error ∧
    Status.completed ≠ Status.cancelled ∧ Status.error ≠ Status.cancelled := by
  decide

/-! ## Claim C4: failure behaviour of the tempo transform -/

/-- C4 counterexample: when ffmpeg fails having written a partial
temporary file, `adjustAudioSpeed` returns without removing it — the
original is untouched but the temporary sibling file is NOT
discarded. -/
theorem ffmpeg_failure_leaves_temp_file :
    (adjustAudioSpeedFs false (some 7) ⟨some 3, none⟩).1.isSome = true ∧
    (adjustAudioSpeedFs false (some 7) ⟨some 3, none⟩).2.orig = some 3 ∧
    (adjustAudioSpeedFs false (some 7) ⟨some 3, none⟩).2.temp = some 7 ∧
    (adjustAudioSpeedFs false (some 7) ⟨some 3, none⟩).2.temp ≠ none := by
  decide

/-- C4 (amended): when ffmpeg reports failure the original file is left
untouched and no replacement occurs — but the temporary sibling file is
left exactly as ffmpeg wrote it, not discarded; the original is
replaced (removed, temp renamed into place) only when the function
reports success. -/
theorem adjustAudioSpeedFs_failure_preserves_original (ok : Bool)
    (tw : Option Nat) (s : FsState) :
    (ok = false →
      adjustAudioSpeedFs ok tw s = (some "ffmpeg failed", ⟨s.orig, tw⟩)) ∧
    ((adjustAudioSpeedFs ok tw s).1 = none →
      ok = true ∧ ∃ t, tw = some t ∧
        (adjustAudioSpeedFs ok tw s).2 = ⟨some t, none⟩) := by
  constructor
  · rintro rfl
    simp [adjustAudioSpeedFs]
  · intro h
    cases ok with
    | false => simp [adjustAudioSpeedFs] at h
    | true =>
      rcases hs : s.orig with _ | c
      · simp [adjustAudioSpeedFs, hs] at h
      · rcases htw : tw with _ | t
        · simp [adjustAudioSpeedFs, hs, htw] at h
        · exact ⟨rfl, t, rfl, by simp [adjustAudioSpeedFs, hs, htw]⟩

theorem adjustAudioSpeedFs_failure_preserves_original_witness :
    adjustAudioSpeedFs false (some 9) ⟨some 4, none⟩ =
      (some "ffmpeg failed", ⟨some 4, some 9⟩) :=
  (adjustAudioSpeedFs_failure_preserves_original false (some 9) ⟨some 4, none⟩).1 rfl

/-! ## Claim C6: cancellation is only valid on active jobs -/

/-- C6: `cancelJobHandler` succeeds only while the status is `queued`,
`downloading` or `processing`; in any other status it returns the
not-cancellable error leaving the job untouched (no signal, no kill);
consequently a second cancellation after a successful one fails cleanly
and the kill is issued at most once. -/
theorem cancelJobHandler_idempotent (j : JobC) :
    (j.status ≠ Status.queued ∧ j.status ≠ Status.downloading ∧
        j.status ≠ Status.processing →
      cancelJobHandler j = (CancelRes.notCancellable, j)) ∧
    ((cancelJobHandler j).1 = CancelRes.ok →
      (cancelJobHandler (cancelJobHandler j).2).1 = CancelRes.notCancellable ∧
      (cancelJobHandler (cancelJobHandler j).2).2 = (cancelJobHandler j).2) ∧
    (cancelJobHandler (cancelJobHandler j).2).2.kills ≤
      j.kills + (if j.hasCmd then 1 else 0) := by
  by_cases hcond : j.status = Status.queued ∨ j.status = Status.downloading ∨
      j.status = Status.processing
  · refine ⟨?_, ?_, ?_⟩
    · rintro ⟨h1, h2, h3⟩
      rcases hcond with h | h | h <;> simp_all
    · intro _
      simp [cancelJobHandler, hcond]
    · simp [cancelJobHandler, hcond]
  · refine ⟨?_, ?_, ?_⟩
    · intro _
      simp [cancelJobHandler, hcond]
    · intro h
      rw [cancelJobHandler, if_neg hcond] at h
      simp at h
    · simp [cancelJobHandler, hcond]

theorem cancelJobHandler_idempotent_witness :
    cancelJobHandler ⟨Status.cancelled, true, 0, 1⟩ =
      (CancelRes.notCancellable, ⟨Status.cancelled, true, 0, 1⟩) :=
  (cancelJobHandler_idempotent ⟨Status.cancelled, true, 0, 1⟩).1 (by decide)

/-! ## Claim C9: the cross-device move fallback -/

/-- C9 counterexample: rename fails with `EXDEV`, the copy (including
the fsync) succeeds, but the removal of the source fails: the file is
still counted in `movedCount` (the loop falls through to
`movedCount++`) while the source file continues to exist — a duplicate
is left behind for a file reported as moved. -/
theorem move_remove_failure_leaves_source :
    (moveOne ⟨true, true, RenameRes.exdev, ⟨true, true, true, true⟩, false⟩).moved
      = true ∧
    (moveOne ⟨true, true, RenameRes.exdev, ⟨true, true, true, true⟩, false⟩).srcExists
      = true ∧
    (moveFilesHandler [⟨true, true, RenameRes.exdev, ⟨true, true, true, true⟩, false⟩]).1
      = 1 := by
  decide

/-- C9 (amended): on an `EXDEV` rename failure the move falls back to
`copyFile`, which reports success only after fsyncing the destination;
a file counted as moved always exists at the destination, and the
source is deleted when the removal succeeds — but when the removal
fails the file is still counted as moved, with a per-file error
recording the leftover source copy. -/
theorem moveOne_exdev_copy_fallback (e : FileEnv)
    (hv : e.validPath = true) (hs : e.srcExists = true)
    (hr : e.rename = RenameRes.exdev) :
    ((moveOne e).moved = true →
      copyFile e.copy = true ∧ (moveOne e).dstExists = true ∧
      (moveOne e).dstSynced = true) ∧
    ((moveOne e).moved = true ∧ e.removeOk = true →
      (moveOne e).srcExists = false ∧ (moveOne e).err = none) ∧
    ((moveOne e).moved = true ∧ e.removeOk = false →
      (moveOne e).srcExists = true ∧
      (moveOne e).err = some MoveErr.copiedButRemoveFailed) ∧
    (copyFile e.copy = false →
      (moveOne e).moved = false ∧ (moveOne e).srcExists = true) := by
  have hbranch : moveOne e =
      if copyFile e.copy then
        (if e.removeOk then ⟨true, none, false, true, true⟩
         else ⟨true, some MoveErr.copiedButRemoveFailed, true, true, true⟩)
      else ⟨false, some MoveErr.copyFailed, true,
        e.copy.openOk && e.copy.createOk, false⟩ := by
    simp [moveOne, hv, hs, hr]
  cases hc : copyFile e.copy <;> cases hro : e.removeOk <;>
    refine ⟨?_, ?_, ?_, ?_⟩ <;> simp [hbranch, hc, hro]

theorem moveOne_exdev_copy_fallback_witness :
    (moveOne ⟨true, true, RenameRes.exdev, ⟨true, true, true, true⟩, true⟩).srcExists
      = false ∧
    (moveOne ⟨true, true, RenameRes.exdev, ⟨true, true, true, true⟩, true⟩).err
      = none :=
  (moveOne_exdev_copy_fallback
    ⟨true, true, RenameRes.exdev, ⟨true, true, true, true⟩, true⟩
    rfl rfl rfl).2.1 ⟨rfl, rfl⟩

/-! ## Executor trace lemmas -/

/-- With the identity multiplier, no event of the executor trace is an
`adjustAudioSpeed` invocation or a `processing` status write. -/
lemma speedOne_trace (cs isPl : Bool) (pe : PlaylistEnv) (se : SingleEnv) :
    ∀ e ∈ downloadTask cs isPl 1 pe se,
      (∀ f, e ≠ Ev.invoke (Tool.ffmpegAdjust f)) ∧
      e ≠ Ev.status Status.processing := by
  cases cs with
  | true =>
    simp [downloadTask, List.forall_mem_cons]
  | false =>
    cases isPl with
    | true =>
      rcases pe with ⟨rerr, nf, cb, aok⟩
      rcases rerr with _ | b
      · simp [downloadTask, playlistBranch, completedBlock, List.forall_mem_cons]
      · cases b <;>
          simp [downloadTask, playlistBranch, List.forall_mem_cons]
    | false =>
      rcases se with ⟨fr, re, ff, ao⟩
      rcases fr with _ | f₀
      · rcases re with _ | b
        · rcases ff with _ | f₁ <;>
            simp [downloadTask, singleBranch, afterDownload, List.forall_mem_cons]
        · cases b <;>
            simp [downloadTask, singleBranch, List.forall_mem_cons]
      · simp [downloadTask, singleBranch, afterDownload, List.forall_mem_cons]

/-- When the cancellation poll before each item never fires, the
playlist processing loop visits every file in order, does not return
early, writes no status, and invokes the audio post-processor once per
file. -/
lemma playlistLoop_noCancel (adjustOk : Nat → Bool) (total : Nat) :
    ∀ (files : List String) (i : Nat),
      (playlistLoop (fun _ => false) adjustOk total files i).2.1 = false ∧
      statusesOf (playlistLoop (fun _ => false) adjustOk total files i).1 = [] ∧
      invokesOf (playlistLoop (fun _ => false) adjustOk total files i).1 =
        files.map Tool.ffmpegAdjust := by
  intro files
  induction files with
  | nil =>
    intro i
    simp [playlistLoop, statusesOf, invokesOf]
  | cons f rest ih =>
    intro i
    obtain ⟨h1, h2, h3⟩ := ih (i + 1)
    have estep : playlistLoop (fun _ => false) adjustOk total (f :: rest) i =
        (Ev.msg (Msg.processingFile (i + 1) total f) ::
           Ev.invoke (Tool.ffmpegAdjust f) ::
           (playlistLoop (fun _ => false) adjustOk total rest (i + 1)).1,
         (playlistLoop (fun _ => false) adjustOk total rest (i + 1)).2.1,
         (if adjustOk i then 1 else 0) +
           (playlistLoop (fun _ => false) adjustOk total rest (i + 1)).2.2) := rfl
    refine ⟨?_, ?_, ?_⟩ <;> rw [estep]
    · exact h1
    · simpa [statusesOf] using h2
    · simpa [invokesOf] using h3

/-! ## Claim C5: playlist batch continues past individual failures -/

/-- C5 counterexample: in a 3-item playlist at speed `1.5` where item 2
(index 1) fails to transform, the loop counts 2 successes, yet the
final job message is `Downloaded 3 files with 1.5x speed` — it reports
the number of downloaded files, not the 2 successes the claim says the
aggregate message mentions. -/
theorem playlist_message_reports_total_not_successes :
    (downloadTask false true (3/2)
        ⟨none, ["a", "b", "c"], fun _ => false, fun i => i != 1⟩
        ⟨none, none, none, true⟩).getLast? =
      some (Ev.msg (Msg.downloadedWithSpeed 3 (3/2))) ∧
    (playlistLoop (fun _ => false) (fun i => i != 1) 3 ["a", "b", "c"] 0).2.2 = 2 ∧
    Msg.downloadedWithSpeed 3 (3/2) ≠ Msg.downloadedWithSpeed 2 (3/2) := by
  refine ⟨?_, by decide, by simp⟩
  have hg : ((3 : ℚ)/2) ≠ 1 ∧ 0 < (["a", "b", "c"] : List String).length :=
    ⟨by norm_num, by decide⟩
  have e0 : downloadTask false true (3/2)
      ⟨none, ["a", "b", "c"], fun _ => false, fun i => i != 1⟩
      ⟨none, none, none, true⟩ =
      Ev.status Status.downloading :: Ev.msg Msg.startingDownload ::
      Ev.msg Msg.downloadingPlaylist :: Ev.invoke Tool.ytdlpPlaylist ::
      (if ((3 : ℚ)/2) ≠ 1 ∧ 0 < (["a", "b", "c"] : List String).length then
        Ev.status Status.processing ::
          Ev.msg (Msg.applyingSpeed (3/2) 3) ::
          ((playlistLoop (fun _ => false) (fun i => i != 1) 3 ["a", "b", "c"] 0).1 ++
            (if (playlistLoop (fun _ => false) (fun i => i != 1) 3
                ["a", "b", "c"] 0).2.1 then []
             else completedBlock (3/2) 3))
      else completedBlock (3/2) 3) := rfl
  rw [e0, if_pos hg]
  have eloop : (playlistLoop (fun _ => false) (fun i => i != 1) 3
      ["a", "b", "c"] 0).2.1 = false := by decide
  rw [eloop, completedBlock, if_pos hg.1]
  have el : (playlistLoop (fun _ => false) (fun i => i != 1) 3
      ["a", "b", "c"] 0).1 =
      [Ev.msg (Msg.processingFile 1 3 "a"), Ev.invoke (Tool.ffmpegAdjust "a"),
       Ev.msg (Msg.processingFile 2 3 "b"), Ev.invoke (Tool.ffmpegAdjust "b"),
       Ev.msg (Msg.processingFile 3 3 "c"), Ev.invoke (Tool.ffmpegAdjust "c")] := by
    decide
  rw [el]
  rfl

/-- C5 (amended): in the playlist workflow with a non-identity
multiplier and no cancellation, the post-processor is invoked on every
newly-downloaded file sequentially, individual transform failures do
not abort the batch, and the job finishes `completed` — but the final
aggregate message reports the number of downloaded files (for any
pattern of per-file outcomes), not the number of successes, which is
only written to the console log. -/
theorem playlist_batch_completes_past_failures (speed : ℚ) (hs : speed ≠ 1)
    (files : List String) (hne : files ≠ []) (aok : Nat → Bool) (se : SingleEnv) :
    statusesOf (downloadTask false true speed
        ⟨none, files, fun _ => false, aok⟩ se) =
      [Status.downloading, Status.processing, Status.completed] ∧
    invokesOf (downloadTask false true speed
        ⟨none, files, fun _ => false, aok⟩ se) =
      Tool.ytdlpPlaylist :: files.map Tool.ffmpegAdjust ∧
    (downloadTask false true speed
        ⟨none, files, fun _ => false, aok⟩ se).getLast? =
      some (Ev.msg (Msg.downloadedWithSpeed files.length speed)) := by
  obtain ⟨h1, h2, h3⟩ := playlistLoop_noCancel aok files.length files 0
  have hlen : 0 < files.length := List.length_pos.mpr hne
  have hguard : speed ≠ 1 ∧ 0 < files.length := ⟨hs, hlen⟩
  have e0 : downloadTask false true speed
      ⟨none, files, fun _ => false, aok⟩ se =
      Ev.status Status.downloading :: Ev.msg Msg.startingDownload ::
      Ev.msg Msg.downloadingPlaylist :: Ev.invoke Tool.ytdlpPlaylist ::
      (if speed ≠ 1 ∧ 0 < files.length then
        Ev.status Status.processing ::
          Ev.msg (Msg.applyingSpeed speed files.length) ::
          ((playlistLoop (fun _ => false) aok files.length files 0).1 ++
            (if (playlistLoop (fun _ => false) aok files.length files 0).2.1
             then []
             else completedBlock speed files.length))
      else completedBlock speed files.length) := rfl
  have etrace : downloadTask false true speed
      ⟨none, files, fun _ => false, aok⟩ se =
      (Ev.status Status.downloading :: Ev.msg Msg.startingDownload ::
       Ev.msg Msg.downloadingPlaylist :: Ev.invoke Tool.ytdlpPlaylist ::
       Ev.status Status.processing ::
       Ev.msg (Msg.applyingSpeed speed files.length) ::
       (playlistLoop (fun _ => false) aok files.length files 0).1) ++
      [Ev.status Status.completed,
       Ev.msg (Msg.downloadedWithSpeed files.length speed)] := by
    rw [e0, if_pos hguard, h1, completedBlock, if_pos hs]
    simp
  refine ⟨?_, ?_, ?_⟩
  · rw [etrace]
    simp only [statusesOf] at h2 ⊢
    simp [List.filterMap_append, h2]
  · rw [etrace]
    simp only [invokesOf] at h3 ⊢
    simp [List.filterMap_append, h3]
  · rw [etrace, List.getLast?_append_of_ne_nil _ (by simp)]
    rfl

theorem playlist_batch_completes_past_failures_witness :
    statusesOf (downloadTask false true (3/2)
        ⟨none, ["a", "b", "c"], fun _ => false, fun i => i != 1⟩
        ⟨none, none, none, true⟩) =
      [Status.downloading, Status.processing, Status.completed] ∧
    invokesOf (downloadTask false true (3/2)
        ⟨none, ["a", "b", "c"], fun _ => false, fun i => i != 1⟩
        ⟨none, none, none, true⟩) =
      Tool.ytdlpPlaylist :: (["a", "b", "c"] : List String).map Tool.ffmpegAdjust ∧
    (downloadTask false true (3/2)
        ⟨none, ["a", "b", "c"], fun _ => false, fun i => i != 1⟩
        ⟨none, none, none, true⟩).getLast? =
      some (Ev.msg (Msg.downloadedWithSpeed (["a", "b", "c"] : List String).length (3/2))) :=
  playlist_batch_completes_past_failures (3/2) (by norm_num) ["a", "b", "c"]
    (by decide) (fun i => i != 1) ⟨none, none, none, true⟩

/-! ## Claim C7: identity multiplier skips processing entirely -/

/-- C7: when the requested multiplier is exactly `1.0`, the executor
never invokes the audio post-processor and never writes the
`processing` status in either workflow; on the success paths the job
goes from `downloading` directly to `completed`. -/
theorem speed_one_skips_processing (speed : ℚ) (hs : speed = 1)
    (cs isPl : Bool) (pe : PlaylistEnv) (se : SingleEnv) :
    (∀ f, Ev.invoke (Tool.ffmpegAdjust f) ∉ downloadTask cs isPl speed pe se) ∧
    Ev.status Status.processing ∉ downloadTask cs isPl speed pe se ∧
    (cs = false → isPl = true → pe.runErr = none →
      statusesOf (downloadTask cs isPl speed pe se) =
        [Status.downloading, Status.completed]) ∧
    (cs = false → isPl = false →
      (se.firstResult.isSome = true ∨
        (se.retryErr = none ∧ se.foundFile.isSome = true)) →
      statusesOf (downloadTask cs isPl speed pe se) =
        [Status.downloading, Status.completed]) := by
  subst hs
  refine ⟨fun f hm => ((speedOne_trace cs isPl pe se _ hm).1 f) rfl,
          fun hm => (speedOne_trace cs isPl pe se _ hm).2 rfl, ?_, ?_⟩
  · rintro rfl rfl hre
    rcases pe with ⟨rerr, nf, cb, aok⟩
    simp only [PlaylistEnv.runErr] at hre
    subst hre
    simp [downloadTask, playlistBranch, completedBlock, statusesOf]
  · rintro rfl rfl hcond
    rcases se with ⟨fr, re, ff, ao⟩
    rcases fr with _ | f₀
    · rcases hcond with h | ⟨hre, hff⟩
      · simp at h
      · simp only [SingleEnv.retryErr] at hre
        subst hre
        rcases ff with _ | f₁
        · simp at hff
        · simp [downloadTask, singleBranch, afterDownload, statusesOf]
    · simp [downloadTask, singleBranch, afterDownload, statusesOf]

theorem speed_one_skips_processing_witness :
    statusesOf (downloadTask false true 1
        ⟨none, ["a"], fun _ => false, fun _ => true⟩
        ⟨some "f", none, none, true⟩) =
      [Status.downloading, Status.completed] :=
  (speed_one_skips_processing 1 rfl false true
    ⟨none, ["a"], fun _ => false, fun _ => true⟩
    ⟨some "f", none, none, true⟩).2.2.1 rfl rfl rfl

/-! ## Claim C8: cancellation before the task starts -/

/-- C8: if the cancellation token is already signalled when the task
starts, the executor writes `cancelled` directly and returns without
invoking any external tool — for either workflow, any speed, and any
environment. -/
theorem cancelled_before_start (isPl : Bool) (speed : ℚ)
    (pe : PlaylistEnv) (se : SingleEnv) :
    downloadTask true isPl speed pe se =
      [Ev.status Status.cancelled, Ev.msg Msg.cancelledBeforeStart] ∧
    invokesOf (downloadTask true isPl speed pe se) = [] ∧
    statusesOf (downloadTask true isPl speed pe se) = [Status.cancelled] :=
  ⟨rfl, rfl, rfl⟩

/-! ## Claim C10: an omitted or zero speed defaults to 1.0 -/

/-- C10: a submission whose speed decodes to `0` (the Go zero value for
an omitted field) is not rejected: the handler substitutes `1.0`, the
created job is identical to an explicit `speed = 1.0` submission, and a
job running at speed `1` never invokes the audio post-processor. -/
theorem zero_speed_defaults_to_one (url : String) (hu : url ≠ "") :
    downloadHandler true ⟨url, 0⟩ = SubmitRes.created url 1 ∧
    downloadHandler true ⟨url, 0⟩ = downloadHandler true ⟨url, 1⟩ ∧
    ∀ (cs isPl : Bool) (pe : PlaylistEnv) (se : SingleEnv) (f : String),
      Ev.invoke (Tool.ffmpegAdjust f) ∉ downloadTask cs isPl 1 pe se := by
  refine ⟨?_, ?_, ?_⟩
  · simp [downloadHandler, hu]
  · simp [downloadHandler, hu]
  · intro cs isPl pe se f hm
    exact ((speedOne_trace cs isPl pe se _ hm).1 f) rfl

theorem zero_speed_defaults_to_one_witness :
    downloadHandler true ⟨"u", 0⟩ = SubmitRes.created "u" 1 :=
  (zero_speed_defaults_to_one "u" (by decide)).1

end SonicSiphon
